import Mathlib

/-
Verification of the originpro binding layer.

This file shallowly embeds the parts of the originpro package that carry
local logic: the connection lifecycle bookkeeping of config.py and base.py
(the process-wide counters _EXIT and _OBJS_COUNT, BaseObject construction
and finalization, the atexit handler, the lazy APP attach wrapper), the
numpy/Origin dtype code tables of config.py, the integer accessors of
base.py, the NLFit session sequencing of analysis.py, and Notes.append of
notes.py.  All definitions are translated from the Python source; the
external Origin host itself is opaque and is modelled by oracle parameters
(functions supplying the values the host would return).
-/

namespace OriginPro

/-
Lifecycle model (config.py lines 8-55, base.py lines 22-35), for the
OriginExt branch, i.e. oext = True, where the counters are active.

  _EXIT = [False]          -> exitFlag
  _OBJS_COUNT = [0]        -> objsCount (a Python int, so modelled as Int)
  po.Detach() invocations  -> detachCalls (an event counter)

Three kinds of state changes touch this shared state:
  Event.init     : the body of BaseObject.init, which runs
                   _OBJS_COUNT[0] += 1 (before any validation of obj);
  Event.del      : the body of BaseObject finalization, which runs
                   _OBJS_COUNT[0] -= 1 and, when _EXIT[0] is set and the
                   counter reached 0, calls po.Detach();
  Event.markExit : the atexit handler, which sets _EXIT[0] = True and,
                   when the counter is 0, calls po.Detach().
-/

inductive Event
  | init
  | del
  | markExit
deriving DecidableEq

structure LifecycleState where
  exitFlag : Bool
  objsCount : Int
  detachCalls : Nat
deriving DecidableEq

/-- The state at module load: _EXIT = [False], _OBJS_COUNT = [0], and no
po.Detach() call has happened. -/
def s0 : LifecycleState := { exitFlag := false, objsCount := 0, detachCalls := 0 }

/-- One lifecycle-relevant state change, exactly as the Python source
performs it. -/
def step (s : LifecycleState) : Event → LifecycleState
  | Event.init => { s with objsCount := s.objsCount + 1 }
  | Event.del =>
      let c := s.objsCount - 1
      { s with objsCount := c,
               detachCalls := if s.exitFlag ∧ c = 0 then s.detachCalls + 1 else s.detachCalls }
  | Event.markExit =>
      { s with exitFlag := true,
               detachCalls := if s.objsCount = 0 then s.detachCalls + 1 else s.detachCalls }

/-- Run a sequence of lifecycle events. -/
def run (s : LifecycleState) : List Event → LifecycleState
  | [] => s
  | e :: tr => run (step s e) tr

def initCount (tr : List Event) : Nat := tr.countP (fun e => decide (e = Event.init))

def delCount (tr : List Event) : Nat := tr.countP (fun e => decide (e = Event.del))

/-- The number of currently-live wrapper objects after a trace: every
object counted by a past Event.init that has not yet been finalized by a
matching Event.del.  (An object whose constructor raised is live, in the
Python sense of existing and awaiting finalization, until its Event.del.) -/
def liveCount (tr : List Event) : Int := (initCount tr : Int) - (delCount tr : Int)

/-- Balance check: a finalization event can only happen while some wrapper
object is live (CPython calls a finalizer exactly once, on an object that
was allocated earlier).  This is what makes a trace a possible process
execution. -/
def balOk : Int → List Event → Bool
  | _, [] => true
  | b, Event.init :: r => balOk (b + 1) r
  | b, Event.del :: r => decide (0 < b) && balOk (b - 1) r
  | b, Event.markExit :: r => balOk b r

def validTrace (tr : List Event) : Bool := balOk 0 tr

theorem run_append (t1 t2 : List Event) (s : LifecycleState) :
    run s (t1 ++ t2) = run (run s t1) t2 := by
  induction t1 generalizing s with
  | nil => rfl
  | cons e r ih => simp [run, ih]

theorem step_objsCount (s : LifecycleState) (e : Event) :
    (step s e).objsCount =
      s.objsCount + (if e = Event.init then 1 else 0) - (if e = Event.del then 1 else 0) := by
  cases e <;> simp [step]

theorem run_objsCount (tr : List Event) (s : LifecycleState) :
    (run s tr).objsCount = s.objsCount + liveCount tr := by
  induction tr generalizing s with
  | nil => simp [run, liveCount, initCount, delCount]
  | cons e r ih =>
    have hc : ∀ p : Event → Bool, (e :: r).countP p = r.countP p + if p e then 1 else 0 :=
      fun p => List.countP_cons p e r
    cases e <;>
      simp only [run, ih, liveCount, initCount, delCount, hc, step] <;>
      simp <;> omega

theorem balOk_append_left (t1 t2 : List Event) (b : Int)
    (h : balOk b (t1 ++ t2) = true) : balOk b t1 = true := by
  induction t1 generalizing b with
  | nil => rfl
  | cons e r ih =>
    cases e <;> simp only [List.cons_append, balOk, Bool.and_eq_true] at h ⊢
    · exact ih _ h
    · exact ⟨h.1, ih _ h.2⟩
    · exact ih _ h

theorem balOk_append_right (t1 t2 : List Event) (b : Int)
    (h : balOk b (t1 ++ t2) = true) : balOk (b + liveCount t1) t2 = true := by
  induction t1 generalizing b with
  | nil => simpa [liveCount, initCount, delCount] using h
  | cons e r ih =>
    have hc : ∀ p : Event → Bool, (e :: r).countP p = r.countP p + if p e then 1 else 0 :=
      fun p => List.countP_cons p e r
    have harith : ∀ c : Int, b + liveCount (e :: r) = c →
        balOk c t2 = true → balOk (b + liveCount (e :: r)) t2 = true := by
      intro c hd hh
      rw [hd]
      exact hh
    cases e <;> simp only [List.cons_append, balOk, Bool.and_eq_true] at h
    · refine harith (b + 1 + liveCount r) ?_ (ih (b + 1) h)
      simp [liveCount, initCount, delCount, hc]
      try omega
    · refine harith (b - 1 + liveCount r) ?_ (ih (b - 1) h.2)
      simp [liveCount, initCount, delCount, hc]
      try omega
    · refine harith (b + liveCount r) ?_ (ih b h)
      simp [liveCount, initCount, delCount, hc]
      try omega

theorem balOk_nonneg (tr : List Event) (b : Int) (hb : 0 ≤ b)
    (h : balOk b tr = true) : 0 ≤ b + liveCount tr := by
  induction tr generalizing b with
  | nil => simpa [liveCount, initCount, delCount] using hb
  | cons e r ih =>
    have hc : ∀ p : Event → Bool, (e :: r).countP p = r.countP p + if p e then 1 else 0 :=
      fun p => List.countP_cons p e r
    cases e <;> simp only [balOk, Bool.and_eq_true, decide_eq_true_eq] at h
    · have := ih (b + 1) (by omega) h
      simp only [liveCount, initCount, delCount, hc] at this ⊢
      simp at this ⊢
      omega
    · have := ih (b - 1) (by omega) h.2
      simp only [liveCount, initCount, delCount, hc] at this ⊢
      simp at this ⊢
      omega
    · have := ih b hb h
      simp only [liveCount, initCount, delCount, hc] at this ⊢
      simp at this ⊢
      omega

/-- Claim C1: for every valid sequence of wrapper-object constructions and
finalizations (BaseObject construction increments _OBJS_COUNT, finalization
decrements it), the Live Object Count _OBJS_COUNT[0] never becomes negative
and, after each operation, equals the number of currently-live wrapper
objects. -/
theorem C1_live_object_count (tr p : List Event) (hv : validTrace tr = true)
    (hp : p <+: tr) :
    (run s0 p).objsCount = liveCount p ∧ 0 ≤ (run s0 p).objsCount := by
  obtain ⟨q, rfl⟩ := hp
  have h1 : balOk 0 p = true := balOk_append_left p q 0 hv
  constructor
  · rw [run_objsCount p s0]
    simp [s0]
  · rw [run_objsCount p s0]
    have h2 := balOk_nonneg p 0 le_rfl h1
    simp only [s0] at h2 ⊢
    omega

/-- Witness for C1 at the concrete trace [init, init, del]. -/
theorem C1_live_object_count_witness :
    (run s0 [Event.init, Event.init, Event.del]).objsCount =
      liveCount [Event.init, Event.init, Event.del] ∧
    0 ≤ (run s0 [Event.init, Event.init, Event.del]).objsCount :=
  C1_live_object_count [Event.init, Event.init, Event.del]
    [Event.init, Event.init, Event.del] (by decide) (List.prefix_refl _)

theorem run_no_markExit (t : List Event) (s : LifecycleState)
    (hex : s.exitFlag = false) (hm : Event.markExit ∉ t) :
    (run s t).exitFlag = false ∧ (run s t).detachCalls = s.detachCalls := by
  induction t generalizing s with
  | nil => exact ⟨hex, rfl⟩
  | cons e r ih =>
    have hm1 : Event.markExit ∉ r := fun hr => hm (List.mem_cons_of_mem e hr)
    cases e with
    | init => exact ih { s with objsCount := s.objsCount + 1 } hex hm1
    | del =>
        have hstep : step s Event.del =
            { s with objsCount := s.objsCount - 1 } := by
          simp [step, hex]
        show (run (step s Event.del) r).exitFlag = false ∧
            (run (step s Event.del) r).detachCalls = s.detachCalls
        rw [hstep]
        exact ih _ hex hm1
    | markExit => exact absurd (List.mem_cons_self _ _) hm

/-- After the Exit Flag is set, running a block of n finalizations from a
count of exactly n objects calls po.Detach() exactly once (at the final
finalization), and leaves the count at zero. -/
theorem run_dels (t : List Event) (s : LifecycleState)
    (hex : s.exitFlag = true) (ht : ∀ e ∈ t, e = Event.del)
    (hc : s.objsCount = (t.length : Int)) (hpos : t ≠ []) :
    (run s t).detachCalls = s.detachCalls + 1 ∧ (run s t).objsCount = 0 := by
  induction t generalizing s with
  | nil => exact absurd rfl hpos
  | cons e r ih =>
    have he : e = Event.del := ht e (List.mem_cons_self e r)
    subst he
    have hr : ∀ e ∈ r, e = Event.del := fun e hh => ht e (List.mem_cons_of_mem _ hh)
    rcases List.eq_nil_or_concat r with hnil | _
    · subst hnil
      constructor
      · show (step s Event.del).detachCalls = s.detachCalls + 1
        simp only [step]
        rw [if_pos]
        exact ⟨hex, by simp at hc; omega⟩
      · show (step s Event.del).objsCount = 0
        simp only [step]
        simp at hc
        omega
    · have hrne : r ≠ [] := by
        intro hn
        subst hn
        simp_all
      have hlen : (0 : Int) < r.length := by
        have : 0 < r.length := List.length_pos.mpr hrne
        exact_mod_cast this
      have hstep : step s Event.del =
          { s with objsCount := s.objsCount - 1 } := by
        simp only [step]
        rw [if_neg]
        intro hand
        have h2' := hand.2
        rw [hc] at h2'
        simp only [List.length_cons] at h2'
        push_cast at h2'
        omega
      show (run (step s Event.del) r).detachCalls = s.detachCalls + 1 ∧
          (run (step s Event.del) r).objsCount = 0
      rw [hstep]
      refine ih { s with objsCount := s.objsCount - 1 } hex hr ?_ hrne
      simp only [List.length_cons] at hc
      simp only
      push_cast at hc ⊢
      omega

/-- Counterexample to claim C2 as stated: in the valid trace
[markExit, init, del] (the atexit handler runs while no wrapper is live,
then a wrapper is constructed and finalized during later shutdown code),
po.Detach() is invoked twice, not exactly once. -/
theorem C2_counterexample :
    validTrace [Event.markExit, Event.init, Event.del] = true ∧
    (run s0 [Event.markExit, Event.init, Event.del]).detachCalls = 2 := by
  constructor
  · decide
  · rfl

/-- Claim C2, amended: po.Detach() is invoked only at a point where the
Exit Flag is set and the Live Object Count is zero (so never while a
wrapper object is live); and in any valid execution in which the exit
handler runs exactly once, no wrapper is constructed after the Exit Flag
is set, and every wrapper is eventually finalized (final count zero),
po.Detach() is invoked exactly once. -/
theorem C2_detach_once (t1 t2 : List Event)
    (hv : validTrace (t1 ++ Event.markExit :: t2) = true)
    (h1 : Event.markExit ∉ t1) (h2 : Event.markExit ∉ t2) (h3 : Event.init ∉ t2)
    (hz : (run s0 (t1 ++ Event.markExit :: t2)).objsCount = 0) :
    (∀ s e, s.detachCalls < (step s e).detachCalls →
      (step s e).exitFlag = true ∧ (step s e).objsCount = 0) ∧
    (run s0 (t1 ++ Event.markExit :: t2)).detachCalls = 1 := by
  constructor
  · intro s e hlt
    cases e with
    | init => simp [step] at hlt
    | del =>
        by_cases hif : s.exitFlag ∧ s.objsCount - 1 = 0
        · constructor
          · simp [step, hif.1]
          · simp [step, hif.2]
        · exfalso
          simp only [step] at hlt
          rw [if_neg hif] at hlt
          omega
    | markExit =>
        by_cases hif : s.objsCount = 0
        · constructor
          · simp [step]
          · simp [step, hif]
        · exfalso
          simp only [step] at hlt
          rw [if_neg hif] at hlt
          omega
  · have hph1 := run_no_markExit t1 s0 rfl h1
    set s1 := run s0 t1 with hs1
    have hcount1 : s1.objsCount = liveCount t1 := by
      rw [hs1, run_objsCount t1 s0]
      simp [s0]
    have ht2del : ∀ e ∈ t2, e = Event.del := by
      intro e he
      cases e with
      | init => exact absurd he h3
      | del => rfl
      | markExit => exact absurd he h2
    have hrw : run s0 (t1 ++ Event.markExit :: t2) =
        run (step s1 Event.markExit) t2 := by
      rw [run_append]
      rfl
    have hcount2 : (step s1 Event.markExit).objsCount = s1.objsCount := by
      simp [step]
    have hlive2 : liveCount t2 = -(t2.length : Int) := by
      have hi : initCount t2 = 0 := by
        simp only [initCount, List.countP_eq_zero]
        intro e he
        rw [ht2del e he]
        decide
      have hd : delCount t2 = t2.length := by
        simp only [delCount, List.countP_eq_length]
        intro e he
        rw [ht2del e he]
        decide
      simp [liveCount, hi, hd]
    have hfinal : s1.objsCount = (t2.length : Int) := by
      rw [hrw, run_objsCount t2 _] at hz
      rw [hcount2] at hz
      rw [hlive2] at hz
      omega
    rw [hrw]
    rcases List.eq_nil_or_concat t2 with hnil | _
    · subst hnil
      simp only [List.length_nil, Nat.cast_zero] at hfinal
      show (step s1 Event.markExit).detachCalls = 1
      simp only [step]
      rw [if_pos hfinal, hph1.2]
      simp [s0]
    · have ht2ne : t2 ≠ [] := by
        rintro rfl
        simp_all
      have hstep : (step s1 Event.markExit).detachCalls = s1.detachCalls := by
        simp only [step]
        rw [if_neg]
        intro h0
        rw [h0] at hfinal
        have : t2.length = 0 := by exact_mod_cast hfinal.symm
        exact ht2ne (List.length_eq_zero.mp this)
      have hexit2 : (step s1 Event.markExit).exitFlag = true := by
        simp [step]
      have := run_dels t2 (step s1 Event.markExit) hexit2 ht2del
        (by rw [hcount2]; exact hfinal) ht2ne
      rw [this.1, hstep, hph1.2]
      simp [s0]

/-- Witness for C2 at the concrete trace [init, markExit, del]. -/
theorem C2_detach_once_witness :
    (run s0 ([Event.init] ++ Event.markExit :: [Event.del])).detachCalls = 1 :=
  (C2_detach_once [Event.init] [Event.del] (by decide) (by decide) (by decide)
    (by decide) (by decide)).2

/-
BaseObject construction (base.py lines 24-29).  The Python body, in the
oext branch, is:  _OBJS_COUNT[0] += 1; if obj is None: raise TypeError;
self.obj = obj.  Note the increment happens before the null check, so a
failed construction still increments the counter; the TypeError aborts
the constructor, so no wrapper value is produced, and CPython will later
run the finalizer of the partially-built object (an Event.del).
-/

inductive PyErr
  | typeError
  | valueError
  | overflowError
deriving DecidableEq

structure BaseObject where
  obj : Nat
deriving DecidableEq

def BaseObject.objInit (obj : Option Nat) (s : LifecycleState) :
    Except PyErr BaseObject × LifecycleState :=
  let s1 := { s with objsCount := s.objsCount + 1 }
  match obj with
  | none => (Except.error PyErr.typeError, s1)
  | some h => (Except.ok { obj := h }, s1)

/-- Counterexample to claim C3 as stated: constructing a wrapper with a
null external reference from the module-load state raises TypeError and
creates no wrapper, but the Live Object Count is NOT left unchanged: the
increment precedes the null check, so the count moves from 0 to 1. -/
theorem C3_counterexample :
    (BaseObject.objInit none s0).1 = Except.error PyErr.typeError ∧
    (BaseObject.objInit none s0).2.objsCount = 1 ∧
    (BaseObject.objInit none s0).2.objsCount ≠ s0.objsCount := by
  refine ⟨rfl, rfl, ?_⟩
  decide

/-- Claim C3, amended: a constructor call with obj = None raises TypeError
and produces no wrapper value, but it does increment the Live Object Count
(the increment precedes the null check); the finalizer that CPython then
runs on the failed object decrements it again, so the complete failed
construction (constructor plus finalizer) leaves the count unchanged. -/
theorem C3_failed_init (s : LifecycleState) :
    (BaseObject.objInit none s).1 = Except.error PyErr.typeError ∧
    (BaseObject.objInit none s).2 = step s Event.init ∧
    (BaseObject.objInit none s).2.objsCount = s.objsCount + 1 ∧
    (step (BaseObject.objInit none s).2 Event.del).objsCount = s.objsCount := by
  refine ⟨rfl, rfl, rfl, ?_⟩
  simp [BaseObject.objInit, step]

/-
Numeric dtype tables (config.py lines 60-74).  npdtype_to_orgdtype is a
Python dict built from nine literal entries followed by the later
assignment npdtype_to_orgdtype[np.int64] = po.DF_LONG; the inverse
orgdtype_to_npdtype is the dict comprehension over its items, in which a
later pair with the same key overwrites an earlier one.
-/

inductive NpDtype
  | float64
  | float32
  | int16
  | int32
  | int8
  | uint8
  | uint16
  | uint32
  | complex128
  | int64
deriving DecidableEq, Fintype

inductive OrgDtype
  | DF_DOUBLE
  | DF_FLOAT
  | DF_SHORT
  | DF_LONG
  | DF_CHAR
  | DF_BYTE
  | DF_USHORT
  | DF_ULONG
  | DF_COMPLEX
deriving DecidableEq, Fintype

/-- Lookup in a Python dict built by inserting the pairs of l in order:
a later binding of the same key overwrites an earlier one. -/
def dictGet {α β : Type} [DecidableEq α] (l : List (α × β)) (k : α) : Option β :=
  (l.reverse.find? (fun p => decide (p.1 = k))).map Prod.snd

/-- The insertion order of npdtype_to_orgdtype: the nine dict-literal
entries, then the appended int64 entry. -/
def npdtypePairs : List (NpDtype × OrgDtype) :=
  [(NpDtype.float64, OrgDtype.DF_DOUBLE),
   (NpDtype.float32, OrgDtype.DF_FLOAT),
   (NpDtype.int16, OrgDtype.DF_SHORT),
   (NpDtype.int32, OrgDtype.DF_LONG),
   (NpDtype.int8, OrgDtype.DF_CHAR),
   (NpDtype.uint8, OrgDtype.DF_BYTE),
   (NpDtype.uint16, OrgDtype.DF_USHORT),
   (NpDtype.uint32, OrgDtype.DF_ULONG),
   (NpDtype.complex128, OrgDtype.DF_COMPLEX),
   (NpDtype.int64, OrgDtype.DF_LONG)]

def npdtype_to_orgdtype (k : NpDtype) : Option OrgDtype := dictGet npdtypePairs k

def orgdtype_to_npdtype (c : OrgDtype) : Option NpDtype :=
  dictGet (npdtypePairs.map (fun p => (p.2, p.1))) c

/-- Counterexample to claim C4 as stated: np.int32 encodes to DF_LONG, but
DF_LONG decodes to np.int64 (the int64 entry, inserted later, overwrote
the int32 entry in the dict comprehension), so encode-then-decode does not
return the original dtype for the key int32, and the mapping is not a
bijection (int32 and int64 share the code DF_LONG). -/
theorem C4_counterexample :
    npdtype_to_orgdtype NpDtype.int32 = some OrgDtype.DF_LONG ∧
    npdtype_to_orgdtype NpDtype.int64 = some OrgDtype.DF_LONG ∧
    orgdtype_to_npdtype OrgDtype.DF_LONG = some NpDtype.int64 ∧
    (npdtype_to_orgdtype NpDtype.int32).bind orgdtype_to_npdtype ≠ some NpDtype.int32 := by
  refine ⟨rfl, rfl, rfl, ?_⟩
  decide

/-- Claim C4, amended: the encoding is total over the ten enumerated dtype
keys and encode-then-decode is the identity on every key except np.int32,
which comes back as np.int64; in the opposite direction the decoding is
total over the nine storage codes and decode-then-encode is the identity
on every code. -/
theorem C4_roundtrip :
    (∀ k : NpDtype, (npdtype_to_orgdtype k).isSome = true) ∧
    (∀ k : NpDtype, (npdtype_to_orgdtype k).bind orgdtype_to_npdtype =
      some (if k = NpDtype.int32 then NpDtype.int64 else k)) ∧
    (∀ c : OrgDtype, (orgdtype_to_npdtype c).isSome = true) ∧
    (∀ c : OrgDtype, (orgdtype_to_npdtype c).bind npdtype_to_orgdtype = some c) := by
  refine ⟨?_, ?_, ?_, ?_⟩ <;> decide

/-
NLFit sessions (analysis.py lines 16-314).  The external host is modelled
by an oracle: GetFDFAsXML either yields a parseable function description
(an FDF value: the GeneralInformation fields the constructor reads) or
fails to parse, which the constructor turns into a ValueError.  The
LabTalk strings passed to po.LT_execute are collected in a list so that
the theorems can talk about which external commands an operation issues.
-/

structure FDF where
  functionModel : Option String
  numDeps : Int
  numIndeps : Int
deriving DecidableEq

structure NLFitSession where
  treeName : String
  ended : Bool
  func : String
  implicit : Bool
  odr : Bool
  numDeps : Int
  numIndeps : Int
deriving DecidableEq

/-- NLFit constructor (analysis.py lines 16-37).  fdf is the outcome of
ET.fromstring(po.LT_get_str(...)): none when the host response for func
does not parse (invalid fitting function). -/
def NLFit.init (fdf : Option FDF) (func method : String) : Except String NLFitSession :=
  match fdf with
  | none => Except.error ("Invalid fitting function: " ++ func)
  | some f =>
    let implicit : Bool := decide (f.functionModel = some "Implicit")
    let base : NLFitSession :=
      { treeName := "", ended := false, func := func, implicit := implicit,
        odr := false, numDeps := f.numDeps, numIndeps := f.numIndeps }
    if method = "auto" then Except.ok { base with odr := implicit }
    else if method = "odr" then Except.ok { base with odr := true }
    else if method = "lm" then
      if implicit then
        Except.error ("Implicit function(" ++ func ++ ") supports odr fitting method only.")
      else Except.ok base
    else Except.error ("Invalid fitting method: " ++ method)

/-- _get_tree_name (analysis.py lines 44-47); idSelf models id(self). -/
def NLFit.getTreeName (s : NLFitSession) (idSelf : Nat) : String × NLFitSession :=
  if s.treeName = "" then
    let t := "_PY_NLFIT_TREE_" ++ toString idSelf
    (t, { s with treeName := t })
  else (s.treeName, s)

/-- A Python value that is either an int or a string, for arguments the
source dispatches on with isinstance(z, int). -/
inductive PyVal
  | pint (z : Int)
  | pstr (t : String)
deriving DecidableEq

/-- set_mdata (analysis.py lines 91-112).  The statement written in the
source for the int case is z =+ 1, which assigns +1 to z, so every int
input yields matrix object index 1.  Returns the updated session and the
list of LabTalk commands issued. -/
def NLFit.set_mdata (sess : NLFitSession) (msRange : String) (z : PyVal) (idSelf : Nat) :
    NLFitSession × List String :=
  let z1 := match z with
    | PyVal.pint _ => PyVal.pint 1
    | v => v
  let ztxt := match z1 with
    | PyVal.pint n => toString n
    | PyVal.pstr t => t
  let rng := msRange ++ "!" ++ ztxt
  let trs := NLFit.getTreeName sess idSelf
  let strLT := "nlbeginm " ++ rng ++ " " ++ sess.func ++ " " ++ trs.1
  ({ trs.2 with ended := false }, [strLT])

/-- result (analysis.py lines 265-284): when _ended is not yet set it
issues nlend and sets the flag; otherwise it does nothing externally.  In
both cases it then reads the result tree back and returns it; it never
raises.  Returns the updated session and the commands issued. -/
def NLFit.result (s : NLFitSession) : Except String (NLFitSession × List String) :=
  if s.ended then Except.ok (s, [])
  else Except.ok ({ s with ended := true }, ["nlend"])

/-- report (analysis.py lines 286-314): raises ValueError when _ended is
already set; otherwise issues nlend 1 (or nlend 1 1 with autoupdate), sets
the flag and returns the report ranges. -/
def NLFit.report (s : NLFitSession) (autoupdate : Bool) :
    Except String (NLFitSession × List String) :=
  if s.ended then Except.error "You must call report() before calling result()."
  else Except.ok ({ s with ended := true },
    [if autoupdate then "nlend 1 1" else "nlend 1"])

def demoSession : NLFitSession :=
  { treeName := "", ended := false, func := "Gauss", implicit := false,
    odr := false, numDeps := 1, numIndeps := 1 }

def demoEnded : NLFitSession := { demoSession with ended := true }

/-- Counterexample to claim C5 as stated: after a first result call has
finalized the fit (setting _ended), a second result call does NOT raise a
usage-sequence error: it returns normally, issuing no external command at
all.  Only report raises in that state. -/
theorem C5_counterexample :
    NLFit.result demoSession = Except.ok (demoEnded, ["nlend"]) ∧
    NLFit.result demoEnded = Except.ok (demoEnded, []) := by
  exact ⟨rfl, rfl⟩

/-- Claim C5, amended: once results are finalized (_ended set), report
raises ValueError and issues no external command, while result does not
raise: it silently skips the nlend command (returning the stored results
again), so in neither case is a second nlend issued. -/
theorem C5_finalize_guard (s : NLFitSession) (au : Bool) (h : s.ended = true) :
    NLFit.report s au = Except.error "You must call report() before calling result()." ∧
    NLFit.result s = Except.ok (s, []) := by
  constructor
  · simp [NLFit.report, h]
  · simp [NLFit.result, h]

/-- Witness for C5 at the concrete finalized session demoEnded. -/
theorem C5_finalize_guard_witness :
    NLFit.report demoEnded true = Except.error "You must call report() before calling result()." ∧
    NLFit.result demoEnded = Except.ok (demoEnded, []) :=
  C5_finalize_guard demoEnded true rfl

/-- Claim C8: the NLFit constructor surfaces an invalid fitting function,
an unknown method option, and the lm-on-implicit combination as ValueError
with a descriptive message, and no session value is produced in any of
these cases. -/
theorem C8_constructor_errors (f : FDF) (func method : String) :
    (NLFit.init none func method = Except.error ("Invalid fitting function: " ++ func)) ∧
    (method ≠ "auto" → method ≠ "odr" → method ≠ "lm" →
      NLFit.init (some f) func method =
        Except.error ("Invalid fitting method: " ++ method)) ∧
    (f.functionModel = some "Implicit" →
      NLFit.init (some f) func "lm" =
        Except.error ("Implicit function(" ++ func ++ ") supports odr fitting method only.")) := by
  refine ⟨rfl, ?_, ?_⟩
  · intro ha ho hl
    simp [NLFit.init, ha, ho, hl]
  · intro him
    simp [NLFit.init, him]

def implicitFDF : FDF := { functionModel := some "Implicit", numDeps := 1, numIndeps := 2 }

/-- Witness for C8 at concrete inputs: an unknown method name and the
lm-on-implicit combination. -/
theorem C8_constructor_errors_witness :
    NLFit.init (some implicitFDF) "Plane" "bogus" =
      Except.error ("Invalid fitting method: " ++ "bogus") ∧
    NLFit.init (some implicitFDF) "Plane" "lm" =
      Except.error ("Implicit function(" ++ "Plane" ++ ") supports odr fitting method only.") :=
  ⟨(C8_constructor_errors implicitFDF "Plane" "bogus").2.1
      (by decide) (by decide) (by decide),
   (C8_constructor_errors implicitFDF "Plane" "lm").2.2 rfl⟩

/-- Claim C9: set_mdata with any int z issues the external command with
matrix object index 1 (the source statement z =+ 1 reassigns z to +1 for
every integer input), while a string z is forwarded unchanged into the
range specification. -/
theorem C9_mdata_int_index (sess : NLFitSession) (msRange : String) (z : Int)
    (w : String) (idSelf : Nat) :
    NLFit.set_mdata sess msRange (PyVal.pint z) idSelf =
      NLFit.set_mdata sess msRange (PyVal.pint 1) idSelf ∧
    (NLFit.set_mdata sess msRange (PyVal.pint z) idSelf).2 =
      ["nlbeginm " ++ (msRange ++ "!" ++ "1") ++ " " ++ sess.func ++ " " ++
        (NLFit.getTreeName sess idSelf).1] ∧
    (NLFit.set_mdata sess msRange (PyVal.pstr w) idSelf).2 =
      ["nlbeginm " ++ (msRange ++ "!" ++ w) ++ " " ++ sess.func ++ " " ++
        (NLFit.getTreeName sess idSelf).1] := by
  refine ⟨rfl, ?_, rfl⟩
  have h1 : toString (1 : Int) = "1" := rfl
  simp [NLFit.set_mdata, h1]

/-
Integer accessors (base.py lines 67-82 and 135-150).  GetNumProp and
DoMethod return a C double; a double is either finite (in which case the
Python int() conversion truncates it to an integer and always succeeds),
NaN (int() raises ValueError) or an infinity (int() raises OverflowError).
HostNum is that exhaustive case split; finite z stands for a finite double
whose truncation toward zero is z.  get_int and method_int wrap the
conversion in try/except ValueError, so only the ValueError case is turned
into the zero default.
-/

inductive HostNum
  | finite (trunc : Int)
  | nan
  | posInf
  | negInf
deriving DecidableEq

/-- The Python int() conversion applied to a double. -/
def pyInt : HostNum → Except PyErr Int
  | HostNum.finite z => Except.ok z
  | HostNum.nan => Except.error PyErr.valueError
  | HostNum.posInf => Except.error PyErr.overflowError
  | HostNum.negInf => Except.error PyErr.overflowError

/-- get_float: forwards to self.obj.GetNumProp(prop); host is the oracle
for the values the external object returns by property name. -/
def get_float (host : String → HostNum) (prop : String) : HostNum := host prop

/-- get_int: try int(self.get_float(prop)) except ValueError: return 0. -/
def get_int (host : String → HostNum) (prop : String) : Except PyErr Int :=
  match pyInt (get_float host prop) with
  | Except.ok n => Except.ok n
  | Except.error PyErr.valueError => Except.ok 0
  | Except.error e => Except.error e

/-- method_float: forwards to self.obj.DoMethod(name, arg). -/
def method_float (host : String → String → HostNum) (name arg : String) : HostNum :=
  host name arg

/-- method_int: try int(self.method_float(name, arg)) except ValueError:
return 0. -/
def method_int (host : String → String → HostNum) (name arg : String) : Except PyErr Int :=
  match pyInt (method_float host name arg) with
  | Except.ok n => Except.ok n
  | Except.error PyErr.valueError => Except.ok 0
  | Except.error e => Except.error e

/-- Counterexample to claim C6 as stated: when the host returns an
infinite value, the int() coercion fails, yet get_int and method_int do
not return the zero default: the OverflowError escapes the except
ValueError handler and propagates to the caller. -/
theorem C6_counterexample :
    (pyInt (get_float (fun _ => HostNum.posInf) "nrows")).isOk = false ∧
    get_int (fun _ => HostNum.posInf) "nrows" = Except.error PyErr.overflowError ∧
    method_int (fun _ _ => HostNum.posInf) "isColSel" "3" =
      Except.error PyErr.overflowError := by
  exact ⟨rfl, rfl, rfl⟩

/-- Claim C6, amended: when the coercion of the host value to int fails
with ValueError (a NaN), get_int and method_int return the zero default
instead of raising; when it succeeds (any finite value) they return the
coerced integer; but when it fails with OverflowError (an infinity) the
error propagates. -/
theorem C6_int_coercion (host : String → HostNum) (hostm : String → String → HostNum)
    (prop name arg : String) :
    (∀ z, host prop = HostNum.finite z → get_int host prop = Except.ok z) ∧
    (host prop = HostNum.nan → get_int host prop = Except.ok 0) ∧
    (host prop = HostNum.posInf →
      get_int host prop = Except.error PyErr.overflowError) ∧
    (host prop = HostNum.negInf →
      get_int host prop = Except.error PyErr.overflowError) ∧
    (∀ z, hostm name arg = HostNum.finite z →
      method_int hostm name arg = Except.ok z) ∧
    (hostm name arg = HostNum.nan → method_int hostm name arg = Except.ok 0) ∧
    (hostm name arg = HostNum.posInf →
      method_int hostm name arg = Except.error PyErr.overflowError) ∧
    (hostm name arg = HostNum.negInf →
      method_int hostm name arg = Except.error PyErr.overflowError) := by
  refine ⟨fun z hz => ?_, fun h => ?_, fun h => ?_, fun h => ?_,
    fun z hz => ?_, fun h => ?_, fun h => ?_, fun h => ?_⟩ <;>
    simp_all [get_int, get_float, method_int, method_float, pyInt]

/-- Witness for C6 at concrete hosts: a NaN property defaults to 0, a
finite method return is truncated and returned. -/
theorem C6_int_coercion_witness :
    get_int (fun _ => HostNum.nan) "nrows" = Except.ok 0 ∧
    method_int (fun _ _ => HostNum.finite 7) "isColSel" "3" = Except.ok 7 :=
  ⟨(C6_int_coercion (fun _ => HostNum.nan) (fun _ _ => HostNum.nan)
      "nrows" "m" "").2.1 rfl,
   (C6_int_coercion (fun _ => HostNum.nan) (fun _ _ => HostNum.finite 7)
      "nrows" "isColSel" "3").2.2.2.2.1 7 rfl⟩

/-
The APP wrapper (config.py lines 16-48).  APP.getattr first tries the
OriginExt module itself (isModuleAttr names the attributes the module
resolves, such as the DF_ numeric-code constants used at module load);
only on a miss does it touch self._app, creating the out-of-process
Application on first need and immediately issuing the LabTalk command
sec -poc, which blocks until Origin signals that its command interpreter
is ready.  Only then is the attribute forwarded to the application.
-/

structure AppState where
  attached : Bool
  creations : Nat
  readyWaits : Nat
deriving DecidableEq

/-- APP() at module load: self._app = None, nothing created. -/
def appInit : AppState := { attached := false, creations := 0, readyWaits := 0 }

inductive Resolved
  | fromModule
  | fromApp
deriving DecidableEq

/-- One APP attribute access. -/
def appGetattr (isModuleAttr : String → Bool) (s : AppState) (name : String) :
    Resolved × AppState :=
  if isModuleAttr name then (Resolved.fromModule, s)
  else if s.attached then (Resolved.fromApp, s)
  else (Resolved.fromApp,
    { attached := true, creations := s.creations + 1, readyWaits := s.readyWaits + 1 })

/-- A sequence of APP attribute accesses. -/
def appRun (isModuleAttr : String → Bool) (s : AppState) : List String → AppState
  | [] => s
  | n :: r => appRun isModuleAttr (appGetattr isModuleAttr s n).2 r

theorem appRun_spec (isModuleAttr : String → Bool) (names : List String) (s : AppState) :
    (appRun isModuleAttr s names).attached =
      (s.attached || names.any (fun n => !(isModuleAttr n))) ∧
    (appRun isModuleAttr s names).creations = s.creations +
      (if !s.attached && names.any (fun n => !(isModuleAttr n)) then 1 else 0) ∧
    (appRun isModuleAttr s names).readyWaits = s.readyWaits +
      (if !s.attached && names.any (fun n => !(isModuleAttr n)) then 1 else 0) := by
  induction names generalizing s with
  | nil => simp [appRun]
  | cons n r ih =>
    by_cases hm : isModuleAttr n = true
    · have hg : appGetattr isModuleAttr s n = (Resolved.fromModule, s) := by
        simp [appGetattr, hm]
      simp only [appRun, hg]
      have := ih s
      simp [List.any_cons, hm, this.1, this.2.1, this.2.2]
    · have hm' : isModuleAttr n = false := by
        cases hq : isModuleAttr n
        · rfl
        · exact absurd hq hm
      by_cases ha : s.attached = true
      · have hg : appGetattr isModuleAttr s n = (Resolved.fromApp, s) := by
          simp [appGetattr, hm', ha]
        simp only [appRun, hg]
        have := ih s
        simp [List.any_cons, hm', ha, this.1, this.2.1, this.2.2]
      · have ha' : s.attached = false := by
          cases hq : s.attached
          · rfl
          · exact absurd hq ha
        have hg : appGetattr isModuleAttr s n =
            (Resolved.fromApp, ⟨true, s.creations + 1, s.readyWaits + 1⟩) := by
          simp [appGetattr, hm', ha']
        simp only [appRun, hg]
        have := ih ⟨true, s.creations + 1, s.readyWaits + 1⟩
        simp [List.any_cons, hm', ha', this.1, this.2.1, this.2.2]

/-- Claim C7: no connection is made at module load (APP() holds no
application); over any sequence of attribute accesses the out-of-process
Application is created exactly once if some access misses the OriginExt
module attributes and must be forwarded, and never otherwise (lazy, on
first forwarded access); every creation issues the sec -poc readiness
wait; and an access that forwards to the application only returns with the
application attached. -/
theorem C7_lazy_attach (isModuleAttr : String → Bool) (names : List String)
    (s : AppState) (name : String) :
    appInit.attached = false ∧ appInit.creations = 0 ∧
    (appRun isModuleAttr appInit names).creations =
      (if names.any (fun n => !(isModuleAttr n)) then 1 else 0) ∧
    (appRun isModuleAttr appInit names).readyWaits =
      (appRun isModuleAttr appInit names).creations ∧
    ((appRun isModuleAttr appInit names).attached =
      names.any (fun n => !(isModuleAttr n))) ∧
    ((appGetattr isModuleAttr s name).1 = Resolved.fromApp →
      (appGetattr isModuleAttr s name).2.attached = true) := by
  have hs := appRun_spec isModuleAttr names appInit
  refine ⟨rfl, rfl, ?_, ?_, ?_, ?_⟩
  · rw [hs.2.1]
    simp [appInit]
  · rw [hs.2.1, hs.2.2]
    simp [appInit]
  · rw [hs.1]
    simp [appInit]
  · intro hfwd
    by_cases hm : isModuleAttr name = true
    · simp [appGetattr, hm] at hfwd
    · have hm' : isModuleAttr name = false := by
        cases hq : isModuleAttr name
        · rfl
        · exact absurd hq hm
      cases hq : s.attached
      · simp [appGetattr, hm', hq]
      · simp [appGetattr, hm', hq]

/-- Witness for C7: with no module attributes, a single access forwards
and attaches. -/
theorem C7_lazy_attach_witness :
    (appGetattr (fun _ => false) appInit "GetPages").2.attached = true :=
  (C7_lazy_attach (fun _ => false) [] appInit "GetPages").2.2.2.2.2 rfl

/-
Notes.append (notes.py lines 108-124): text = self.text + text; if
newline: text += os.linesep; self.text = text.  linesep is the platform
line separator os.linesep.
-/

structure NotesWin where
  text : String
deriving DecidableEq

def Notes.append (w : NotesWin) (t : String) (newline : Bool) (linesep : String) :
    NotesWin :=
  let txt := w.text ++ t
  let txt := if newline then txt ++ linesep else txt
  { text := txt }

/-- Claim C10: appending t to a Notes window holding t0 yields
t0 ++ t ++ os.linesep with newline=True (the separator goes after the
appended text, not between old and new), and t0 ++ t with newline=False. -/
theorem C10_notes_append (t0 t linesep : String) :
    (Notes.append { text := t0 } t true linesep).text = t0 ++ t ++ linesep ∧
    (Notes.append { text := t0 } t false linesep).text = t0 ++ t := by
  exact ⟨rfl, rfl⟩

end OriginPro
